import Mathlib

/-
Verification of the plugin-library core of `too-many-plugins`.

The embedding follows the TypeScript sources:
  * src/types/supported-platform.ts, src/types/plugin-info.ts, src/types/library.ts
  * src/handlers/jar/read-file-from-jar.ts    (archive reader)
  * src/handlers/jar/get-plugin-info.ts       (descriptor extractor)
  * src/handlers/jar/plugin-info-cache.ts     (content cache)
  * src/handlers/folder/get-jar-files.ts      (directory scan)
  * src/handlers/library/manager.ts           (library index + resolver/search)

Modelling conventions:
  * Thrown exceptions become `Option` results (`none` = the call threw and the
    caller's catch block ran).
  * The persisted key-value store becomes explicit state records.
  * Parsed YAML/JSON documents are association lists of `CVal` values; an
    archive entry either is raw text, a well-formed YAML/JSON document, or an
    unparsable blob.
  * The sha256 content digest is collision resistant, so it is modelled
    injectively: the digest of an archive is its entry list itself.
-/

set_option maxRecDepth 4000

namespace TMP

/-- Closed platform enumeration (src/types/supported-platform.ts, `SupportedPlatform`). -/
inductive SupportedPlatform where
  | BungeeCord
  | Bukkit
  | Velocity
  | Folia
  deriving DecidableEq

/-- One metadata record of an archive (src/types/plugin-info.ts, `PluginInfo`). -/
structure PluginInfo where
  name : String
  version : String
  description : Option String
  authors : List String
  loadbefore : List String
  softdepend : List String
  platform : List SupportedPlatform
  deriving DecidableEq

/-- Scalar value inside a parsed YAML/JSON document. -/
inductive CVal where
  | s (v : String)
  | b (v : Bool)
  | list (v : List String)
  deriving DecidableEq

/-- A parsed YAML/JSON document: an association list of configuration fields. -/
abbrev Config := List (String × CVal)

/-- Content of one entry inside a jar archive.  `raw` is plain text (e.g. the
bytes of a compiled class); `yamlDoc`/`jsonDoc` are texts whose YAML/JSON parse
succeeds and yields the given document; `badDoc` is non-empty text that no
parser accepts. -/
inductive JarEntry where
  | raw (text : String)
  | yamlDoc (c : Config)
  | jsonDoc (c : Config)
  | badDoc
  deriving DecidableEq

/-- A jar archive: its zip entries, addressed by exact internal path. -/
abbrev Jar := List (String × JarEntry)

/-- The filesystem visible to the core: jar files by absolute path, and
directories mapping to their entry-name listing (`none` value = the
directory cannot be read, so `readdir` throws). -/
structure FS where
  jars : List (String × Jar)
  dirs : List (String × Option (List String))

/-- Lookup in a string-keyed association list (JS object / `Map` read). -/
def getEntry {α : Type} (m : List (String × α)) (k : String) : Option α :=
  match m with
  | [] => none
  | (k', v) :: rest => if k' = k then some v else getEntry rest k

/-- Write to a string-keyed association list: JS object / `Map` assignment
semantics (update in place if the key exists, else append, preserving
insertion order). -/
def setEntry {α : Type} (m : List (String × α)) (k : String) (v : α) : List (String × α) :=
  match m with
  | [] => [(k, v)]
  | (k', v') :: rest => if k' = k then (k, v) :: rest else (k', v') :: setEntry rest k v

/-- Whether the pattern is a leading segment of the character list. -/
def leadsWith : List Char → List Char → Bool
  | [], _ => true
  | _ :: _, [] => false
  | p :: ps, c :: cs => p = c && leadsWith ps cs

/-- Whether the pattern occurs contiguously somewhere in the character list. -/
def occursWithin (pat : List Char) : List Char → Bool
  | [] => leadsWith pat []
  | c :: cs => leadsWith pat (c :: cs) || occursWithin pat cs

/-- JS `String.prototype.includes`: substring containment. -/
def strIncludes (s pat : String) : Bool :=
  occursWithin pat.toList s.toList

/-- JS `String.prototype.toLowerCase`, character by character (ASCII suffices
for the extension and name comparisons of this code base). -/
def strToLower (s : String) : String :=
  String.mk (s.toList.map Char.toLower)

/-- Archive reader (src/handlers/jar/read-file-from-jar.ts, `readFileFromJar`).
`none` models every throwing outcome: jar missing, entry missing in the jar,
or unreadable content. -/
def readFileFromJar (fs : FS) (jarPath filePath : String) : Option JarEntry :=
  match getEntry fs.jars jarPath with
  | none => none
  | some entries => getEntry entries filePath

/-- JS truthiness of the text returned by `readFileFromJar`: only the empty
string is falsy; parsed-document and malformed texts are non-empty. -/
def isTruthy : JarEntry → Bool
  | .raw t => t ≠ ""
  | _ => true

/-- Result of `JSON.parse` on an entry's text: only a well-formed JSON
document parses; everything else throws. -/
def parseJsonDoc : JarEntry → Option Config
  | .jsonDoc c => some c
  | _ => none

/-- Result of `js-yaml`'s `load` on an entry's text, as consumed by the probes:
YAML is a superset of JSON, so both document forms parse; raw text and
malformed text lead the probe to its catch block (either `load` throws or the
scalar result makes the subsequent field access throw). -/
def parseYamlDoc : JarEntry → Option Config
  | .yamlDoc c => some c
  | .jsonDoc c => some c
  | _ => none

/-- The character content of an entry as scanned by `checkClassInheritance`.
Descriptor-document serializations are assumed not to contain the compiled
class markers, so only raw entries expose text. -/
def textOf : JarEntry → String
  | .raw t => t
  | _ => ""

/-- src/handlers/jar/get-plugin-info.ts, `ensureString`: keep strings, apply
JS `String(...)` to anything else (`undefined` stringifies to "undefined"). -/
def ensureString : Option CVal → String
  | some (.s v) => v
  | some (.b true) => "true"
  | some (.b false) => "false"
  | some (.list v) => String.intercalate "," v
  | none => "undefined"

/-- Read a field expected to hold a string; non-string values are passed
through untyped in the source, which the record type cannot represent, so the
model keeps only string values. -/
def lookupStr (c : Config) (k : String) : Option String :=
  match getEntry c k with
  | some (.s v) => some v
  | _ => none

/-- Read a field guarded by `Array.isArray` in the source. -/
def lookupArr (c : Config) (k : String) : List String :=
  match getEntry c k with
  | some (.list v) => v
  | _ => []

/-- src/handlers/jar/get-plugin-info.ts, `parseYamlConfig`.  The source
returns a record without `platform`; callers spread it and add the platform
list, modelled here by returning `platform := []` for the caller to replace. -/
def parseYamlConfig (config : Config) : PluginInfo :=
  { name := (lookupStr config "name").getD ""
    version := ensureString (getEntry config "version")
    description := lookupStr config "description"
    authors := lookupArr config "authors"
    loadbefore := lookupArr config "loadbefore"
    softdepend := lookupArr config "softdepend"
    platform := [] }

/-- src/handlers/jar/get-plugin-info.ts, `parseJsonConfig` (Velocity JSON:
`id` is the name; dependency hints are forced empty). -/
def parseJsonConfig (config : Config) : PluginInfo :=
  { name := (lookupStr config "id").getD ""
    version := ensureString (getEntry config "version")
    description := lookupStr config "description"
    authors := lookupArr config "authors"
    loadbefore := []
    softdepend := []
    platform := [] }

/-- The compiled-class entry path of a dotted main-class name:
`mainClass.replace(/\./g, "/") + ".class"` (the pattern is a single
character, so the global replace is a character map). -/
def classPathOf (mainClass : String) : String :=
  String.mk (mainClass.toList.map (fun c => if c = '.' then '/' else c)) ++ ".class"

/-- src/handlers/jar/get-plugin-info.ts, `checkClassInheritance`: sniff the
class text for known marker substrings. -/
def checkClassInheritance (classContent : String) : Option SupportedPlatform :=
  if strIncludes classContent "net/md_5/bungee/api/plugin/Plugin" then
    some SupportedPlatform.BungeeCord
  else if strIncludes classContent "org/bukkit/plugin/java/JavaPlugin" then
    some SupportedPlatform.Bukkit
  else if strIncludes classContent "org/bukkit/Bukkit" then
    some SupportedPlatform.Bukkit
  else
    none

/-- src/handlers/jar/get-plugin-info.ts, `getVelocityPluginInfo`. -/
def getVelocityPluginInfo (fs : FS) (jarPath : String) : Option PluginInfo :=
  match readFileFromJar fs jarPath "velocity-plugin.json" with
  | none => none
  | some e =>
    if isTruthy e then
      match parseJsonDoc e with
      | some config => some { parseJsonConfig config with platform := [SupportedPlatform.Velocity] }
      | none => none
    else none

/-- src/handlers/jar/get-plugin-info.ts, `getBungeePluginInfo`. -/
def getBungeePluginInfo (fs : FS) (jarPath : String) : Option PluginInfo :=
  match readFileFromJar fs jarPath "bungee.yml" with
  | none => none
  | some e =>
    if isTruthy e then
      match parseYamlDoc e with
      | some config => some { parseYamlConfig config with platform := [SupportedPlatform.BungeeCord] }
      | none => none
    else none

/-- First platform-signal `push` site of `getCommonPluginInfo`: the
main-class sniffing outcome — nothing when the config has no string `main`
field or the class read throws (caught and logged); the sniffed platform when
a marker matches; conservatively both Bukkit and BungeeCord when the class
was read but no marker matched. -/
def mainClassPlatforms (fs : FS) (jarPath : String) (config : Config) : List SupportedPlatform :=
  match getEntry config "main" with
  | some (.s mainClass) =>
    match readFileFromJar fs jarPath (classPathOf mainClass) with
    | none => []
    | some ce =>
      match checkClassInheritance (textOf ce) with
      | some p => [p]
      | none => [SupportedPlatform.Bukkit, SupportedPlatform.BungeeCord]
  | _ => []

/-- Both platform signals of the Common probe combined, starting from the
initially empty platform list: the main-class outcome, then `Folia` appended
when the config carries a boolean `folia-supported` equal to true. -/
def commonPlatforms (fs : FS) (jarPath : String) (config : Config) : List SupportedPlatform :=
  if getEntry config "folia-supported" = some (.b true) then
    mainClassPlatforms fs jarPath config ++ [SupportedPlatform.Folia]
  else mainClassPlatforms fs jarPath config

/-- src/handlers/jar/get-plugin-info.ts, `getCommonPluginInfo`: parse
`plugin.yml`, then union the two platform signals of `commonPlatforms` into
the initially empty platform set; discard the record entirely when the
platform set is still empty afterwards. -/
def getCommonPluginInfo (fs : FS) (jarPath : String) : Option PluginInfo :=
  match readFileFromJar fs jarPath "plugin.yml" with
  | none => none
  | some e =>
    if isTruthy e then
      match parseYamlDoc e with
      | none => none
      | some config =>
        let pluginInfo :=
          { parseYamlConfig config with platform := commonPlatforms fs jarPath config }
        if pluginInfo.platform.length > 0 then some pluginInfo else none
    else none

/-- src/handlers/jar/get-plugin-info.ts, `getPluginInfo`: concatenate the
non-null results of the three probes in the fixed order Velocity, BungeeCord,
Common. -/
def getPluginInfo (fs : FS) (jarPath : String) : List PluginInfo :=
  (match getVelocityPluginInfo fs jarPath with | some i => [i] | none => []) ++
  (match getBungeePluginInfo fs jarPath with | some i => [i] | none => []) ++
  (match getCommonPluginInfo fs jarPath with | some i => [i] | none => [])

/-- One indexed archive record (src/types/library.ts, `PluginEntry`). -/
structure PluginEntry where
  info : PluginInfo
  hash : Jar
  jarPath : String
  deriving DecidableEq

/-- A plugin library (src/types/library.ts, `Library`). -/
structure Library where
  id : String
  path : String
  plugins : List PluginEntry
  deriving DecidableEq

/-- One content-cache slot (src/types/plugin-info.ts, `PluginCacheEntry`). -/
structure CacheEntry where
  info : List PluginInfo
  hash : Jar
  deriving DecidableEq

/-- State of the content cache's persisted key (`tmp:plugin:info-cache`) plus
an extraction-call counter instrumenting invocations of the Descriptor
Extractor, as spec section 8 asks to observe. -/
structure CacheSt where
  cache : List (String × CacheEntry)
  extracts : Nat
  deriving DecidableEq

/-- Full persisted state: the `tmp:plugin:libraries` key and the cache key. -/
structure St where
  libraries : List (String × Library)
  cacheSt : CacheSt
  deriving DecidableEq

/-- src/handlers/jar/plugin-info-cache.ts, `getFileHash`: sha256 hex digest of
the file's bytes.  Byte-identical files have identical entry lists, and the
digest is collision resistant, so it is modelled injectively by the entry
list itself.  A missing file hashes like an empty archive. -/
def getFileHash (fs : FS) (filePath : String) : Jar :=
  (getEntry fs.jars filePath).getD []

/-- src/handlers/jar/plugin-info-cache.ts, `getPluginInfoWithCache`: return
the stored records when the stored hash matches the current file hash,
otherwise invoke `getPluginInfo` (counted in `extracts`) and store the fresh
pair. -/
def getPluginInfoWithCache (fs : FS) (c : CacheSt) (jarPath : String) :
    List PluginInfo × CacheSt :=
  let hash := getFileHash fs jarPath
  match getEntry c.cache jarPath with
  | some e =>
    if e.hash = hash then (e.info, c)
    else
      let info := getPluginInfo fs jarPath
      (info, { cache := setEntry c.cache jarPath ⟨info, hash⟩, extracts := c.extracts + 1 })
  | none =>
    let info := getPluginInfo fs jarPath
    (info, { cache := setEntry c.cache jarPath ⟨info, hash⟩, extracts := c.extracts + 1 })

/-- The suffix starting at the last dot of a character list, if any dot
occurs. -/
def extSplit : List Char → Option (List Char)
  | [] => none
  | c :: cs =>
    match extSplit cs with
    | some e => some e
    | none => if c = '.' then some (c :: cs) else none

/-- Node `path.extname`: the suffix starting at the last dot, empty when
there is no dot or when the last dot is the leading character of a dotfile
name. -/
def extname (file : String) : String :=
  match extSplit file.toList with
  | none => ""
  | some e => if e.length = file.toList.length then "" else String.mk e

/-- Node `path.join` for one directory level. -/
def pathJoin (a b : String) : String := a ++ "/" ++ b

/-- src/handlers/folder/get-jar-files.ts, `getJarFiles`: list the directory,
keep names with extension `.jar` (case-insensitive), return absolute paths.
Any `readdir` failure is caught, logged, and turned into an empty list.
Paths are taken as already absolute, so `path.resolve` is the identity. -/
def getJarFiles (fs : FS) (folderPath : String) : List String :=
  match getEntry fs.dirs folderPath with
  | some (some files) =>
    (files.filter (fun f => strToLower (extname f) = ".jar")).map (fun f => pathJoin folderPath f)
  | _ => []

/-- The `for (const jarFile of jarFiles)` loop of `updateLibraryIndex`
(src/handlers/library/manager.ts lines 122-144), written recursively: each
file either re-uses every already-held entry with the same hash (incremental
mode, hash seen before) or obtains records through the content cache and
appends one entry per record. -/
def indexJars (fs : FS) (rebuild : Bool) (basePlugins : List PluginEntry)
    (existingHashes : List Jar) (c : CacheSt) : List String → List PluginEntry × CacheSt
  | [] => ([], c)
  | jarFile :: rest =>
    let hsh := getFileHash fs jarFile
    if !rebuild && existingHashes.contains hsh then
      let r := indexJars fs rebuild basePlugins existingHashes c rest
      (basePlugins.filter (fun p => p.hash = hsh) ++ r.1, r.2)
    else
      let g := getPluginInfoWithCache fs c jarFile
      let r := indexJars fs rebuild basePlugins existingHashes g.2 rest
      (g.1.map (fun info => PluginEntry.mk info hsh jarFile) ++ r.1, r.2)

/-- src/handlers/library/manager.ts lines 101-157, `updateLibraryIndex`.
`none` models the thrown "library does not exist" error.  The source filters
`library.plugins` by candidate-path validity on line 147 and then immediately
overwrites `library.plugins` with `newPlugins` on line 152, so the filtered
value (`deadFiltered` below) is dead; it is kept to mirror the source. -/
def updateLibraryIndex (fs : FS) (st : St) (id : String) (rebuild : Bool) :
    Option (Library × St) :=
  match getEntry st.libraries id with
  | none => none
  | some library0 =>
    let jarFiles := getJarFiles fs library0.path
    let library1 := if rebuild then { library0 with plugins := [] } else library0
    let existingHashes := library1.plugins.map (·.hash)
    let validJarPaths := jarFiles
    let r := indexJars fs rebuild library1.plugins existingHashes st.cacheSt jarFiles
    let deadFiltered :=
      { library1 with plugins := library1.plugins.filter (fun p => validJarPaths.contains p.jarPath) }
    let library2 := { deadFiltered with plugins := r.1 }
    some (library2, { libraries := setEntry st.libraries id library2, cacheSt := r.2 })

/-- Structured version form produced by `semver.coerce`. -/
structure SemVer where
  major : Nat
  minor : Nat
  patch : Nat
  deriving DecidableEq

/-- Numeric value of a digit run. -/
def digitsVal (cs : List Char) : Nat :=
  cs.foldl (fun n c => n * 10 + (c.toNat - 48)) 0

/-- Parse `major[.minor[.patch]]` starting at a digit, taking maximal digit
runs, as `semver.coerce` extracts its first match. -/
def coerceAt (cs : List Char) : SemVer :=
  let ma := cs.takeWhile Char.isDigit
  let r1 := cs.dropWhile Char.isDigit
  match r1 with
  | '.' :: r2 =>
    if (r2.headD ' ').isDigit then
      let mi := r2.takeWhile Char.isDigit
      let r3 := r2.dropWhile Char.isDigit
      match r3 with
      | '.' :: r4 =>
        if (r4.headD ' ').isDigit then
          ⟨digitsVal ma, digitsVal mi, digitsVal (r4.takeWhile Char.isDigit)⟩
        else ⟨digitsVal ma, digitsVal mi, 0⟩
      | _ => ⟨digitsVal ma, digitsVal mi, 0⟩
    else ⟨digitsVal ma, 0, 0⟩
  | _ => ⟨digitsVal ma, 0, 0⟩

/-- Position of the first digit, if any. -/
def findFirstDigit : List Char → Option (List Char)
  | [] => none
  | c :: cs => if c.isDigit then some (c :: cs) else findFirstDigit cs

/-- `semver.valid(semver.coerce(s))`: the coerced `major.minor.patch` form of
the first number group in the string, or `none` when no digits occur (the
16-digit component cap of the library is not modelled). -/
def semverCoerce (s : String) : Option SemVer :=
  (findFirstDigit s.toList).map coerceAt

/-- `semver.compare` on coerced (prerelease-free) versions: lexicographic on
major, minor, patch, returning -1, 0 or 1. -/
def semverCompare (x y : SemVer) : Int :=
  if x.major > y.major then 1 else if x.major < y.major then -1
  else if x.minor > y.minor then 1 else if x.minor < y.minor then -1
  else if x.patch > y.patch then 1 else if x.patch < y.patch then -1 else 0

/-- The comparator inside `sortVersions` (src/handlers/library/manager.ts
lines 236-259): coerce both, compare structurally (`semver.rcompare a b`
equals `compare b a`), and on a tie or coercion failure put the version
carrying the literal `SNAPSHOT` marker after the one without it. -/
def compareVersions (a b : String) : Int :=
  let aSnap := strIncludes a "SNAPSHOT"
  let bSnap := strIncludes b "SNAPSHOT"
  let tie : Int := if aSnap && !bSnap then 1 else if !aSnap && bSnap then -1 else 0
  match semverCoerce a, semverCoerce b with
  | some va, some vb =>
    let r := semverCompare vb va
    if r ≠ 0 then r else tie
  | _, _ => tie

/-- Stable insertion of one element under the comparator: the new element
goes before the first resident it strictly precedes. -/
def insertVersion (x : String) : List String → List String
  | [] => [x]
  | y :: ys => if compareVersions x y < 0 then x :: y :: ys else y :: insertVersion x ys

/-- src/handlers/library/manager.ts, `sortVersions`: JS `Array.prototype.sort`
with the comparator above, modelled as a stable insertion sort (JS sort is
stable; on the two-element arrays used by `findPlugin` the two coincide
because the comparator is sign-antisymmetric). -/
def sortVersions (versions : List String) : List String :=
  versions.foldl (fun acc x => insertVersion x acc) []

/-- The optional filters of `findPlugin` (src/handlers/library/manager.ts
lines 169-175). -/
structure Filters where
  name : Option String
  pluginVersion : Option String
  latest : Bool
  platform : Option SupportedPlatform
  libraryId : Option String

/-- JS truthiness of an optional string filter: the empty string is falsy and
disables the filter like an absent one. -/
def strTruthy : Option String → Option String
  | some "" => none
  | o => o

/-- The per-library filter chain of `findPlugin` (lines 188-207): name is a
case-insensitive substring match, version an exact match, platform a
membership test. -/
def pluginFilters (filters : Filters) (plugins : List PluginEntry) : List PluginEntry :=
  let r1 := match strTruthy filters.name with
    | some n => plugins.filter (fun p => strIncludes (strToLower p.info.name) (strToLower n))
    | none => plugins
  let r2 := match strTruthy filters.pluginVersion with
    | some v => r1.filter (fun p => p.info.version = v)
    | none => r1
  match filters.platform with
  | some pl => r2.filter (fun p => p.info.platform.contains pl)
  | none => r2

/-- The `latest` reduction of `findPlugin` (lines 212-224): an
insertion-ordered map keyed by plugin name keeps, per name, the entry whose
version wins the pairwise `sortVersions` race. -/
def latestReduce (results : List PluginEntry) : List PluginEntry :=
  (results.foldl
    (fun (m : List (String × PluginEntry)) plugin =>
      match getEntry m plugin.info.name with
      | none => setEntry m plugin.info.name plugin
      | some currentLatest =>
        if (sortVersions [plugin.info.version, currentLatest.info.version]).head?
            = some plugin.info.version
        then setEntry m plugin.info.name plugin
        else m)
    []).map (·.2)

/-- src/handlers/library/manager.ts lines 169-228, `findPlugin`.  `none`
models the thrown "Library ... not found" error for an unknown `libraryId`. -/
def findPlugin (st : St) (filters : Filters) : Option (List PluginEntry) :=
  match strTruthy filters.libraryId with
  | some lid =>
    match getEntry st.libraries lid with
    | none => none
    | some lib =>
      let results := pluginFilters filters lib.plugins
      some (if filters.latest then latestReduce results else results)
  | none =>
    let results :=
      (st.libraries.map (·.2)).foldl (fun acc lib => acc ++ pluginFilters filters lib.plugins) []
    some (if filters.latest then latestReduce results else results)

/-- A cache slot for a path that is fresh: present and carrying the path's
current content hash. -/
def cacheFresh (fs : FS) (c : CacheSt) (p : String) : Prop :=
  ∃ e, getEntry c.cache p = some e ∧ e.hash = getFileHash fs p

/-! Concrete fixtures used by counterexamples and witnesses. -/

/-- A Bukkit-tagged "Foo" 1.0 record, as the C1 scenario's `A.jar` yields. -/
def c1infoA : PluginInfo :=
  ⟨"Foo", "1.0", none, [], [], [], [SupportedPlatform.Bukkit]⟩

/-- A Velocity-tagged "Foo" 2.0 record, as the C1 scenario's `B.jar` yields. -/
def c1infoB : PluginInfo :=
  ⟨"Foo", "2.0", none, [], [], [], [SupportedPlatform.Velocity]⟩

/-- Index entry of the Bukkit "Foo" archive. -/
def c1entryA : PluginEntry := ⟨c1infoA, [("A", JarEntry.raw "A")], "/L/A.jar"⟩

/-- Index entry of the Velocity "Foo" archive. -/
def c1entryB : PluginEntry := ⟨c1infoB, [("B", JarEntry.raw "B")], "/L/B.jar"⟩

/-- A store with one library `L` holding the two same-named entries. -/
def c1st : St := ⟨[("L", ⟨"L", "/L", [c1entryA, c1entryB]⟩)], ⟨[], 0⟩⟩

/-- The C1 query: name "Foo", latest requested, no platform filter. -/
def c1filters : Filters := ⟨some "Foo", none, true, none, none⟩

/-- Velocity descriptor document used by the reindex fixtures. -/
def cxCfgFoo : Config := [("id", CVal.s "Foo"), ("version", CVal.s "1.0")]

/-- A jar holding exactly that Velocity descriptor. -/
def cxJarFoo : Jar := [("velocity-plugin.json", JarEntry.jsonDoc cxCfgFoo)]

/-- The record its extraction produces. -/
def cxInfoFoo : PluginInfo :=
  ⟨"Foo", "1.0", none, [], [], [], [SupportedPlatform.Velocity]⟩

/-- C2 filesystem: one library directory with one archive. -/
def c2fs : FS := ⟨[("/lib2/a.jar", cxJarFoo)], [("/lib2", some ["a.jar"])]⟩

/-- C2 state: empty index, and a fresh, coherent cache slot for the archive. -/
def c2st : St :=
  ⟨[("lib2", ⟨"lib2", "/lib2", []⟩)],
   ⟨[("/lib2/a.jar", ⟨[cxInfoFoo], cxJarFoo⟩)], 0⟩⟩

/-- C3 filesystem: `a.jar` still present, `b.jar` deleted, and `c.jar` added
with byte-identical content (hence an identical hash). -/
def c3fs : FS :=
  ⟨[("/lib3/a.jar", cxJarFoo), ("/lib3/c.jar", cxJarFoo)],
   [("/lib3", some ["a.jar", "c.jar"])]⟩

/-- The previously indexed entry of the still-present `a.jar`. -/
def c3entryA : PluginEntry := ⟨cxInfoFoo, cxJarFoo, "/lib3/a.jar"⟩

/-- The previously indexed entry of the now-deleted `b.jar`; its hash equals
`a.jar`'s because the two were byte-identical. -/
def c3entryB : PluginEntry := ⟨cxInfoFoo, cxJarFoo, "/lib3/b.jar"⟩

/-- C3 state: the index still holds both old entries. -/
def c3st : St := ⟨[("lib3", ⟨"lib3", "/lib3", [c3entryA, c3entryB]⟩)], ⟨[], 0⟩⟩

/-- C4 filesystem: two byte-identical archives in one directory. -/
def c4fs : FS :=
  ⟨[("/lib4/a.jar", cxJarFoo), ("/lib4/b.jar", cxJarFoo)],
   [("/lib4", some ["a.jar", "b.jar"])]⟩

/-- C4 state: fresh empty library, empty cache. -/
def c4st : St := ⟨[("lib4", ⟨"lib4", "/lib4", []⟩)], ⟨[], 0⟩⟩

/-- Entry produced for `/lib4/a.jar` by the first incremental reindex. -/
def c4entryA : PluginEntry := ⟨cxInfoFoo, cxJarFoo, "/lib4/a.jar"⟩

/-- Entry produced for `/lib4/b.jar` by the first incremental reindex. -/
def c4entryB : PluginEntry := ⟨cxInfoFoo, cxJarFoo, "/lib4/b.jar"⟩

/-- Witness jar A for the amended C4 theorem: distinct content from jar B. -/
def w4jarA : Jar :=
  [("velocity-plugin.json", JarEntry.jsonDoc [("id", CVal.s "Alpha"), ("version", CVal.s "1.0")])]

/-- Witness jar B for the amended C4 theorem. -/
def w4jarB : Jar :=
  [("velocity-plugin.json", JarEntry.jsonDoc [("id", CVal.s "Beta"), ("version", CVal.s "2.0")])]

/-- Witness filesystem: two archives with pairwise-distinct hashes. -/
def w4fs : FS :=
  ⟨[("/w4/a.jar", w4jarA), ("/w4/b.jar", w4jarB)], [("/w4", some ["a.jar", "b.jar"])]⟩

/-- Witness state: one fresh library over that directory. -/
def w4st : St := ⟨[("w4", ⟨"w4", "/w4", []⟩)], ⟨[], 0⟩⟩

/-- Witness filesystem for the cache-transparency claim: one archive. -/
def w5fs : FS := ⟨[("/w5/a.jar", cxJarFoo)], [("/w5", some ["a.jar"])]⟩

/-- C10 filesystem: no directory is readable at all. -/
def c10fs : FS := ⟨[], []⟩

/-- C10 state: a library whose directory has vanished but whose index still
holds an entry. -/
def c10st : St :=
  ⟨[("lib10", ⟨"lib10", "/gone", [⟨cxInfoFoo, cxJarFoo, "/gone/a.jar"⟩]⟩)], ⟨[], 0⟩⟩

/-- C6 filesystem: one archive with no descriptor entry at all. -/
def c6fs : FS := ⟨[("/c6/a.jar", [("x/Y.class", JarEntry.raw "nothing relevant")])], []⟩

/-- C7 config: a plugin.yml naming a main class and declaring folia support. -/
def c7config : Config :=
  [("name", CVal.s "Seven"), ("version", CVal.s "1.0"),
   ("main", CVal.s "com.x.Main"), ("folia-supported", CVal.b true)]

/-- C7 filesystem: the main class resolves but carries no platform marker. -/
def c7fs : FS :=
  ⟨[("/c7/a.jar",
     [("plugin.yml", JarEntry.yamlDoc c7config),
      ("com/x/Main.class", JarEntry.raw "unrelated bytes")])], []⟩

/-- C9 config: a plugin.yml naming a main class, without folia support. -/
def c9config : Config :=
  [("name", CVal.s "Nine"), ("version", CVal.s "1.0"), ("main", CVal.s "com.x.Gone")]

/-- C9 filesystem: the named main class entry is missing from the archive, so
reading it throws. -/
def c9fs : FS := ⟨[("/c9/a.jar", [("plugin.yml", JarEntry.yamlDoc c9config)])], []⟩

/-- C8 entry: name "P", version "1.2.0". -/
def c8e120 : PluginEntry :=
  ⟨⟨"P", "1.2.0", none, [], [], [], [SupportedPlatform.Bukkit]⟩,
   [("1", JarEntry.raw "1")], "/c8/1.jar"⟩

/-- C8 entry: name "P", version "1.10.0". -/
def c8e1100 : PluginEntry :=
  ⟨⟨"P", "1.10.0", none, [], [], [], [SupportedPlatform.Bukkit]⟩,
   [("2", JarEntry.raw "2")], "/c8/2.jar"⟩

/-- C8 entry: name "P", version "1.2.0-SNAPSHOT". -/
def c8e120s : PluginEntry :=
  ⟨⟨"P", "1.2.0-SNAPSHOT", none, [], [], [], [SupportedPlatform.Bukkit]⟩,
   [("3", JarEntry.raw "3")], "/c8/3.jar"⟩

/-- C8 store with the three same-named versions, in the claim's order. -/
def c8st : St := ⟨[("c8", ⟨"c8", "/c8", [c8e120, c8e1100, c8e120s]⟩)], ⟨[], 0⟩⟩

/-- C8 entry: name "Q", version "2.0-SNAPSHOT". -/
def c8e20s : PluginEntry :=
  ⟨⟨"Q", "2.0-SNAPSHOT", none, [], [], [], [SupportedPlatform.Bukkit]⟩,
   [("4", JarEntry.raw "4")], "/c8/4.jar"⟩

/-- C8 entry: name "Q", version "2.0". -/
def c8e20 : PluginEntry :=
  ⟨⟨"Q", "2.0", none, [], [], [], [SupportedPlatform.Bukkit]⟩,
   [("5", JarEntry.raw "5")], "/c8/5.jar"⟩

/-- C8 store with the snapshot/stable pair, in the claim's order. -/
def c8st2 : St := ⟨[("c8b", ⟨"c8b", "/c8b", [c8e20s, c8e20]⟩)], ⟨[], 0⟩⟩

/-! Helper lemmas about the store primitives. -/

/-- Writing a key and reading it back yields the written value. -/
theorem getEntry_setEntry_self {α : Type} (m : List (String × α)) (k : String) (v : α) :
    getEntry (setEntry m k v) k = some v := by
  induction m with
  | nil => simp [setEntry, getEntry]
  | cons kv rest ih =>
    obtain ⟨k', v'⟩ := kv
    by_cases h : k' = k
    · simp [setEntry, h, getEntry]
    · simp [setEntry, h, getEntry, ih]

/-- Writing one key leaves every other key unchanged. -/
theorem getEntry_setEntry_other {α : Type} (m : List (String × α)) (k k' : String) (v : α)
    (h : k' ≠ k) :
    getEntry (setEntry m k v) k' = getEntry m k' := by
  induction m with
  | nil =>
    simp only [setEntry, getEntry]
    rw [if_neg (fun hk => h hk.symm)]
  | cons kv rest ih =>
    obtain ⟨k'', v''⟩ := kv
    by_cases h2 : k'' = k
    · subst h2
      simp only [setEntry, if_pos rfl, getEntry]
      rw [if_neg (fun hk => h hk.symm), if_neg (fun hk => h hk.symm)]
    · simp only [setEntry, if_neg h2, getEntry]
      by_cases h3 : k'' = k'
      · simp [h3]
      · simp [h3, ih]

/-- `Bool` membership test versus propositional membership, at the instance
the index code uses for hash sets. -/
theorem contains_iff_mem {l : List Jar} {x : Jar} :
    l.contains x = true ↔ x ∈ l :=
  List.elem_iff

/-- A hash absent from an entry list's hashes filters that list to nothing. -/
theorem filter_hash_eq_nil {P : List PluginEntry} {x : Jar}
    (h : (P.map (·.hash)).contains x = false) :
    P.filter (fun e => e.hash = x) = [] := by
  rw [List.filter_eq_nil_iff]
  intro e he
  simp only [decide_eq_true_eq]
  intro hx
  have hmem : x ∈ P.map (·.hash) := List.mem_map.mpr ⟨e, he, hx⟩
  have hc := contains_iff_mem.mpr hmem
  exact Bool.false_ne_true (h.symm.trans hc)

/-! Helper lemmas about the content cache. -/

/-- A fresh cache slot short-circuits `getPluginInfoWithCache`: the stored
records come back and the state is untouched. -/
theorem gwc_of_fresh (fs : FS) (c : CacheSt) (p : String) (e : CacheEntry)
    (h1 : getEntry c.cache p = some e) (h2 : e.hash = getFileHash fs p) :
    getPluginInfoWithCache fs c p = (e.info, c) := by
  simp [getPluginInfoWithCache, h1, h2]

/-- After any `getPluginInfoWithCache` call the path's slot holds exactly the
returned records together with the current hash. -/
theorem gwc_cache_after (fs : FS) (c : CacheSt) (p : String) :
    getEntry (getPluginInfoWithCache fs c p).2.cache p
      = some ⟨(getPluginInfoWithCache fs c p).1, getFileHash fs p⟩ := by
  unfold getPluginInfoWithCache
  cases hc : getEntry c.cache p with
  | none => simp [getEntry_setEntry_self]
  | some e =>
    obtain ⟨einfo, ehash⟩ := e
    by_cases hh : ehash = getFileHash fs p
    · simp [hh, hc]
    · simp [hh, getEntry_setEntry_self]

/-- A `getPluginInfoWithCache` call touches only its own path's cache slot. -/
theorem gwc_cache_other (fs : FS) (c : CacheSt) (p q : String) (h : q ≠ p) :
    getEntry (getPluginInfoWithCache fs c p).2.cache q = getEntry c.cache q := by
  unfold getPluginInfoWithCache
  cases hc : getEntry c.cache p with
  | none => simp [getEntry_setEntry_other _ _ _ _ h]
  | some e =>
    by_cases hh : e.hash = getFileHash fs p
    · simp [hh]
    · simp [hh, getEntry_setEntry_other _ _ _ _ h]

/-- Calling `getPluginInfoWithCache` twice in a row on one path returns the
same records the second time and leaves the state of the first call as is. -/
theorem gwc_stable (fs : FS) (c : CacheSt) (p : String) :
    getPluginInfoWithCache fs (getPluginInfoWithCache fs c p).2 p
      = ((getPluginInfoWithCache fs c p).1, (getPluginInfoWithCache fs c p).2) :=
  gwc_of_fresh _ _ _ _ (gwc_cache_after fs c p) rfl

/-! Helper lemmas about the reindex loop. -/

/-- Processing a file list never touches the cache slot of a path outside it. -/
theorem indexJars_cache_preserve (fs : FS) (rebuild : Bool) (base : List PluginEntry)
    (H : List Jar) (p : String) :
    ∀ (l : List String) (c : CacheSt), p ∉ l →
      getEntry ((indexJars fs rebuild base H c l).2).cache p = getEntry c.cache p := by
  intro l
  induction l with
  | nil => intro c _; rfl
  | cons q rest ih =>
    intro c hp
    have hpq : p ≠ q := fun h => hp (h ▸ List.mem_cons_self q rest)
    have hprest : p ∉ rest := fun h => hp (List.mem_cons_of_mem q h)
    by_cases hb : (!rebuild && H.contains (getFileHash fs q)) = true
    · simp only [indexJars, if_pos hb]
      exact ih _ hprest
    · simp only [indexJars, if_neg hb]
      rw [ih _ hprest, gwc_cache_other _ _ _ _ hpq]

/-- With `rebuild = true` and every candidate fresh in the cache, the whole
loop leaves the cache state unchanged (so in particular it never invokes the
extractor). -/
theorem indexJars_rebuild_all_fresh (fs : FS) (base : List PluginEntry) (H : List Jar) :
    ∀ (l : List String) (c : CacheSt), (∀ p ∈ l, cacheFresh fs c p) →
      (indexJars fs true base H c l).2 = c := by
  intro l
  induction l with
  | nil => intro c _; rfl
  | cons q rest ih =>
    intro c hfresh
    obtain ⟨e, he, hh⟩ := hfresh q (List.mem_cons_self q rest)
    have hcond : ¬((!true && H.contains (getFileHash fs q)) = true) := by simp
    simp only [indexJars, if_neg hcond, gwc_of_fresh fs c q e he hh]
    exact ih _ (fun p hp => hfresh p (List.mem_cons_of_mem q hp))

/-- Assembly step for `indexJars_fix`: a head chunk whose entries all carry
the head candidate's hash, followed by a tail that already satisfies the
per-candidate filter decomposition, satisfies it for the extended list when
the head hash differs from every tail hash. -/
theorem chunk_flatMap_recover (fs : FS) (p : String) (rest : List String)
    (chunk T : List PluginEntry)
    (hchunk : ∀ e ∈ chunk, e.hash = getFileHash fs p)
    (hhead : ∀ q ∈ rest, getFileHash fs p ≠ getFileHash fs q)
    (htail : T = rest.flatMap (fun q => T.filter (fun e => e.hash = getFileHash fs q))) :
    chunk ++ T
      = (p :: rest).flatMap
          (fun q => (chunk ++ T).filter (fun e => e.hash = getFileHash fs q)) := by
  have htmem : ∀ e ∈ T, ∃ q ∈ rest, e.hash = getFileHash fs q := by
    intro e he
    rw [htail] at he
    obtain ⟨q, hq, hef⟩ := List.mem_flatMap.mp he
    exact ⟨q, hq, of_decide_eq_true (List.mem_filter.mp hef).2⟩
  rw [List.flatMap_cons]
  have h1 : (chunk ++ T).filter (fun e => e.hash = getFileHash fs p) = chunk := by
    rw [List.filter_append]
    have hA : chunk.filter (fun e => e.hash = getFileHash fs p) = chunk :=
      List.filter_eq_self.mpr (fun e he => decide_eq_true (hchunk e he))
    have hB : T.filter (fun e => e.hash = getFileHash fs p) = [] := by
      refine List.filter_eq_nil_iff.mpr (fun e he => ?_)
      obtain ⟨q, hq, heq⟩ := htmem e he
      simp only [decide_eq_true_eq]
      rw [heq]
      exact fun hc => hhead q hq hc.symm
    rw [hA, hB, List.append_nil]
  have h2 : rest.flatMap (fun q => (chunk ++ T).filter (fun e => e.hash = getFileHash fs q)) = T := by
    have hcg : ∀ q ∈ rest,
        (chunk ++ T).filter (fun e => e.hash = getFileHash fs q)
          = T.filter (fun e => e.hash = getFileHash fs q) := by
      intro q hq
      rw [List.filter_append]
      have hC : chunk.filter (fun e => e.hash = getFileHash fs q) = [] := by
        refine List.filter_eq_nil_iff.mpr (fun e he => ?_)
        simp only [decide_eq_true_eq]
        rw [hchunk e he]
        exact hhead q hq
      rw [hC, List.nil_append]
    rw [List.flatMap_congr hcg, ← htail]
  rw [h1, h2]

/-- Under pairwise-distinct candidate hashes, the incremental loop's output
decomposes per candidate: it equals the concatenation, over the candidates in
order, of its own entries carrying each candidate's hash. -/
theorem indexJars_fix (fs : FS) (base : List PluginEntry) (H : List Jar) :
    ∀ (l : List String) (c : CacheSt),
      l.Pairwise (fun p q => getFileHash fs p ≠ getFileHash fs q) →
      (indexJars fs false base H c l).1
        = l.flatMap (fun p =>
            (indexJars fs false base H c l).1.filter (fun e => e.hash = getFileHash fs p)) := by
  intro l
  induction l with
  | nil => intro c _; rfl
  | cons p rest ih =>
    intro c hpw
    rw [List.pairwise_cons] at hpw
    obtain ⟨hhead, htail⟩ := hpw
    by_cases hb : (!false && H.contains (getFileHash fs p)) = true
    · simp only [indexJars, if_pos hb]
      exact chunk_flatMap_recover fs p rest _ _
        (fun e he => of_decide_eq_true (List.mem_filter.mp he).2)
        hhead (ih c htail)
    · simp only [indexJars, if_neg hb]
      refine chunk_flatMap_recover fs p rest _ _ ?_ hhead (ih _ htail)
      intro e he
      obtain ⟨info, _, rfl⟩ := List.mem_map.mp he
      rfl

/-- Membership in the hashes of a list's right part lifts to the whole. -/
theorem contains_hash_append_right {A B : List PluginEntry} {x : Jar}
    (h : (((A ++ B).map (·.hash)).contains x) = false) :
    ((B.map (·.hash)).contains x) = false := by
  cases hcb : (B.map (·.hash)).contains x with
  | false => rfl
  | true =>
    obtain ⟨e, he, hh⟩ := List.mem_map.mp (contains_iff_mem.mp hcb)
    have hall : x ∈ (A ++ B).map (·.hash) :=
      List.mem_map.mpr ⟨e, List.mem_append_right A he, hh⟩
    exact absurd (h.symm.trans (contains_iff_mem.mpr hall)) Bool.false_ne_true

/-- Second-run characterization: over a base `P1` whose hashes form the
membership set, with a cache that is fresh-with-empty-records for every
candidate whose hash is absent from `P1`, the incremental loop returns per
candidate exactly the `P1` entries carrying that candidate's hash, and the
cache is left untouched. -/
theorem indexJars_stable_run (fs : FS) (P1 : List PluginEntry) :
    ∀ (l : List String) (c : CacheSt),
      (∀ p ∈ l, ((P1.map (·.hash)).contains (getFileHash fs p)) = false →
        getEntry c.cache p = some ⟨[], getFileHash fs p⟩) →
      indexJars fs false P1 (P1.map (·.hash)) c l
        = (l.flatMap (fun p => P1.filter (fun e => e.hash = getFileHash fs p)), c) := by
  intro l
  induction l with
  | nil => intro c _; rfl
  | cons p rest ih =>
    intro c hfresh
    have ihr := ih c (fun q hq => hfresh q (List.mem_cons_of_mem _ hq))
    by_cases hb : ((P1.map (·.hash)).contains (getFileHash fs p)) = true
    · have hcond : (!false && (P1.map (·.hash)).contains (getFileHash fs p)) = true := by
        rw [Bool.not_false, Bool.true_and]; exact hb
      simp only [indexJars, if_pos hcond]
      rw [ihr, List.flatMap_cons]
    · have hb' : ((P1.map (·.hash)).contains (getFileHash fs p)) = false := by
        cases hcb : (P1.map (·.hash)).contains (getFileHash fs p) with
        | false => rfl
        | true => exact absurd hcb hb
      have hcond : ¬((!false && (P1.map (·.hash)).contains (getFileHash fs p)) = true) := by
        rw [Bool.not_false, Bool.true_and]
        exact fun hc => Bool.false_ne_true (hb'.symm.trans hc)
      simp only [indexJars, if_neg hcond]
      rw [gwc_of_fresh fs c p ⟨[], getFileHash fs p⟩ (hfresh p (List.mem_cons_self p rest) hb') rfl]
      rw [ihr, List.flatMap_cons, filter_hash_eq_nil hb']
      simp

/-- First-run residue: after an incremental run, any candidate none of whose
records made it into the output (its hash is absent from the output) has a
fresh cache slot storing the empty record list — the run extracted it and got
nothing.  Needs distinct candidate paths. -/
theorem indexJars_fresh_after (fs : FS) (base : List PluginEntry) :
    ∀ (l : List String) (c : CacheSt) (p : String),
      l.Nodup → p ∈ l →
      ((((indexJars fs false base (base.map (·.hash)) c l).1).map (·.hash)).contains
        (getFileHash fs p)) = false →
      getEntry ((indexJars fs false base (base.map (·.hash)) c l).2).cache p
        = some ⟨[], getFileHash fs p⟩ := by
  intro l
  induction l with
  | nil => intro c p _ hp _; exact absurd hp (List.not_mem_nil p)
  | cons q rest ih =>
    intro c p hnd hp hnotin
    rw [List.nodup_cons] at hnd
    obtain ⟨hqrest, hndrest⟩ := hnd
    by_cases hb : ((base.map (·.hash)).contains (getFileHash fs q)) = true
    · have hcond : (!false && (base.map (·.hash)).contains (getFileHash fs q)) = true := by
        rw [Bool.not_false, Bool.true_and]; exact hb
      rcases List.mem_cons.mp hp with hpq | hprest
      · subst hpq
        exfalso
        obtain ⟨e, he, hehash⟩ := List.mem_map.mp (contains_iff_mem.mp hb)
        have heout : e ∈ (indexJars fs false base (base.map (·.hash)) c (p :: rest)).1 := by
          simp only [indexJars, if_pos hcond]
          exact List.mem_append_left _ (List.mem_filter.mpr ⟨he, decide_eq_true hehash⟩)
        have hmem : getFileHash fs p
            ∈ ((indexJars fs false base (base.map (·.hash)) c (p :: rest)).1).map (·.hash) :=
          List.mem_map.mpr ⟨e, heout, hehash⟩
        exact absurd (hnotin.symm.trans (contains_iff_mem.mpr hmem)) Bool.false_ne_true
      · simp only [indexJars, if_pos hcond] at hnotin ⊢
        exact ih c p hndrest hprest (contains_hash_append_right hnotin)
    · have hcond : ¬((!false && (base.map (·.hash)).contains (getFileHash fs q)) = true) := by
        simp only [Bool.not_false, Bool.true_and]
        exact hb
      rcases List.mem_cons.mp hp with hpq | hprest
      · subst hpq
        simp only [indexJars, if_neg hcond] at hnotin ⊢
        have hg1 : (getPluginInfoWithCache fs c p).1 = [] := by
          cases hg : (getPluginInfoWithCache fs c p).1 with
          | nil => rfl
          | cons info tl =>
            exfalso
            have hmemchunk : (⟨info, getFileHash fs p, p⟩ : PluginEntry)
                ∈ ((getPluginInfoWithCache fs c p).1).map
                    (fun info => PluginEntry.mk info (getFileHash fs p) p) := by
              rw [hg]
              exact List.mem_cons_self _ _
            have hmem : getFileHash fs p
                ∈ ((((getPluginInfoWithCache fs c p).1).map
                      (fun info => PluginEntry.mk info (getFileHash fs p) p)) ++
                    (indexJars fs false base (base.map (·.hash))
                      (getPluginInfoWithCache fs c p).2 rest).1).map (·.hash) :=
              List.mem_map.mpr ⟨_, List.mem_append_left _ hmemchunk, rfl⟩
            exact absurd (hnotin.symm.trans (contains_iff_mem.mpr hmem)) Bool.false_ne_true
        rw [indexJars_cache_preserve fs false base (base.map (·.hash)) p rest _ hqrest]
        have := gwc_cache_after fs c p
        rw [hg1] at this
        exact this
      · simp only [indexJars, if_neg hcond] at hnotin ⊢
        exact ih _ p hndrest hprest (contains_hash_append_right hnotin)

/-- Unfolding equation of an incremental reindex on a known library. -/
theorem updateLibraryIndex_eq_incremental (fs : FS) (st : St) (id : String) (lib0 : Library)
    (hlib : getEntry st.libraries id = some lib0) :
    updateLibraryIndex fs st id false
      = some
          ({ lib0 with plugins :=
              (indexJars fs false lib0.plugins (lib0.plugins.map (·.hash)) st.cacheSt
                (getJarFiles fs lib0.path)).1 },
           { libraries :=
              setEntry st.libraries id
                { lib0 with plugins :=
                    (indexJars fs false lib0.plugins (lib0.plugins.map (·.hash)) st.cacheSt
                      (getJarFiles fs lib0.path)).1 },
             cacheSt :=
              (indexJars fs false lib0.plugins (lib0.plugins.map (·.hash)) st.cacheSt
                (getJarFiles fs lib0.path)).2 }) := by
  unfold updateLibraryIndex
  rw [hlib]
  rfl

/-- Unfolding equation of a rebuild reindex on a known library: the entry set
is discarded before the loop, so the loop runs with an empty base and an
empty hash set. -/
theorem updateLibraryIndex_eq_rebuild (fs : FS) (st : St) (id : String) (lib0 : Library)
    (hlib : getEntry st.libraries id = some lib0) :
    updateLibraryIndex fs st id true
      = some
          ({ lib0 with plugins :=
              (indexJars fs true [] [] st.cacheSt (getJarFiles fs lib0.path)).1 },
           { libraries :=
              setEntry st.libraries id
                { lib0 with plugins :=
                    (indexJars fs true [] [] st.cacheSt (getJarFiles fs lib0.path)).1 },
             cacheSt :=
              (indexJars fs true [] [] st.cacheSt (getJarFiles fs lib0.path)).2 }) := by
  unfold updateLibraryIndex
  rw [hlib]
  rfl

/-! Claim theorems. -/

/-- C4 (amended): running `updateLibraryIndex(id, rebuild=false)` twice in a
row with no intervening filesystem change yields an identical entry set both
times, provided the scanned archives' content hashes are pairwise distinct
(with byte-identical archives in one directory the second run duplicates
their entries; see the counterexample). -/
theorem updateLibraryIndex_incremental_idempotent (fs : FS) (st : St) (id : String)
    (lib0 : Library)
    (hlib : getEntry st.libraries id = some lib0)
    (hdist : (getJarFiles fs lib0.path).Pairwise
      (fun p q => getFileHash fs p ≠ getFileHash fs q)) :
    ∃ lib1 st1 lib2 st2,
      updateLibraryIndex fs st id false = some (lib1, st1) ∧
      updateLibraryIndex fs st1 id false = some (lib2, st2) ∧
      lib2.plugins = lib1.plugins := by
  have hNodup : (getJarFiles fs lib0.path).Nodup :=
    hdist.imp (fun hne heq => hne (by rw [heq]))
  have h1 := updateLibraryIndex_eq_incremental fs st id lib0 hlib
  set L := getJarFiles fs lib0.path with hL
  set r1 := indexJars fs false lib0.plugins (lib0.plugins.map (·.hash)) st.cacheSt L with hr1
  set lib1 : Library := { lib0 with plugins := r1.1 } with hlib1def
  set st1 : St := { libraries := setEntry st.libraries id lib1, cacheSt := r1.2 } with hst1def
  have hlib1 : getEntry st1.libraries id = some lib1 := getEntry_setEntry_self _ _ _
  have h2 := updateLibraryIndex_eq_incremental fs st1 id lib1 hlib1
  have hpath : lib1.path = lib0.path := rfl
  rw [hpath] at h2
  have hfresh : ∀ p ∈ L, ((r1.1.map (·.hash)).contains (getFileHash fs p)) = false →
      getEntry r1.2.cache p = some ⟨[], getFileHash fs p⟩ := by
    intro p hp hn
    exact indexJars_fresh_after fs lib0.plugins L st.cacheSt p hNodup hp hn
  have hstable := indexJars_stable_run fs r1.1 L r1.2 hfresh
  have hfix := indexJars_fix fs lib0.plugins (lib0.plugins.map (·.hash)) L st.cacheSt hdist
  refine ⟨lib1, st1, _, _, h1, h2, ?_⟩
  show (indexJars fs false lib1.plugins (lib1.plugins.map (·.hash)) st1.cacheSt L).1
      = lib1.plugins
  have hplug : lib1.plugins = r1.1 := rfl
  have hcache : st1.cacheSt = r1.2 := rfl
  rw [hplug, hcache, hstable]
  exact hfix.symm

/-- Witness for C4: the amended idempotence theorem applied to a concrete
two-archive library whose content hashes are pairwise distinct. -/
theorem updateLibraryIndex_incremental_idempotent_witness :
    ∃ lib1 st1 lib2 st2,
      updateLibraryIndex w4fs w4st "w4" false = some (lib1, st1) ∧
      updateLibraryIndex w4fs st1 "w4" false = some (lib2, st2) ∧
      lib2.plugins = lib1.plugins :=
  updateLibraryIndex_incremental_idempotent w4fs w4st "w4" ⟨"w4", "/w4", []⟩
    (by decide) (by decide)

/-- C4 (counterexample): with two byte-identical archives in one directory,
the first incremental reindex yields two entries and the second reindex
yields those two entries twice — the entry sets of the two runs differ, so
the claimed unconditional idempotence fails. -/
theorem updateLibraryIndex_idempotence_counterexample :
    (((updateLibraryIndex c4fs c4st "lib4" false).bind fun r =>
      (updateLibraryIndex c4fs r.2 "lib4" false).map fun r2 =>
        (r.1.plugins, r2.1.plugins))
      = some ([c4entryA, c4entryB], [c4entryA, c4entryB, c4entryA, c4entryB]))
    ∧ ([c4entryA, c4entryB] : List PluginEntry)
        ≠ [c4entryA, c4entryB, c4entryA, c4entryB] :=
  ⟨by decide, by decide⟩

/-- C3 (code behavior at the failing input): `a.jar` present, byte-identical
`c.jar` added, byte-identical `b.jar` deleted.  The incremental reindex keeps
the stale `/lib3/b.jar` entry (its hash matches a still-present archive) and
creates no `/lib3/c.jar` entry: hash-keyed retention re-emits other paths'
entries and the path-validity filter of manager.ts line 147 is dead code,
overwritten on line 152. -/
theorem updateLibraryIndex_stale_path_retained :
    getJarFiles c3fs "/lib3" = ["/lib3/a.jar", "/lib3/c.jar"] ∧
    (updateLibraryIndex c3fs c3st "lib3" false).map (fun r => r.1.plugins.map (·.jarPath))
      = some ["/lib3/a.jar", "/lib3/b.jar", "/lib3/a.jar", "/lib3/b.jar"] :=
  ⟨by decide, by decide⟩

/-- C2 (counterexample): one candidate archive, rebuild requested, its cache
slot fresh — the reindex succeeds with the cached records and the extraction
counter stays at zero, so the Descriptor Extractor is not invoked afresh for
every candidate. -/
theorem updateLibraryIndex_rebuild_cache_hit_counterexample :
    getJarFiles c2fs "/lib2" = ["/lib2/a.jar"] ∧
    (updateLibraryIndex c2fs c2st "lib2" true).map
        (fun r => (r.1.plugins, r.2.cacheSt.extracts))
      = some ([⟨cxInfoFoo, cxJarFoo, "/lib2/a.jar"⟩], 0) :=
  ⟨by decide, by decide⟩

/-- C2 (amended): `updateLibraryIndex(id, rebuild=true)` discards the
existing entries and reprocesses every candidate through the content cache;
a candidate whose cached hash matches its current hash is served from the
cache without invoking the Descriptor Extractor — when every candidate is
fresh, the extraction counter does not move. -/
theorem updateLibraryIndex_rebuild_uses_cache (fs : FS) (st : St) (id : String)
    (lib0 : Library)
    (hlib : getEntry st.libraries id = some lib0)
    (hfresh : ∀ p ∈ getJarFiles fs lib0.path, cacheFresh fs st.cacheSt p) :
    ∃ lib1 st1,
      updateLibraryIndex fs st id true = some (lib1, st1) ∧
      st1.cacheSt.extracts = st.cacheSt.extracts := by
  have h1 := updateLibraryIndex_eq_rebuild fs st id lib0 hlib
  refine ⟨_, _, h1, ?_⟩
  show (indexJars fs true [] [] st.cacheSt (getJarFiles fs lib0.path)).2.extracts
      = st.cacheSt.extracts
  rw [indexJars_rebuild_all_fresh fs [] [] (getJarFiles fs lib0.path) st.cacheSt hfresh]

/-- Witness for C2: the amended theorem applied at the concrete fresh-cache
library of the counterexample. -/
theorem updateLibraryIndex_rebuild_uses_cache_witness :
    ∃ lib1 st1,
      updateLibraryIndex c2fs c2st "lib2" true = some (lib1, st1) ∧
      st1.cacheSt.extracts = c2st.cacheSt.extracts :=
  updateLibraryIndex_rebuild_uses_cache c2fs c2st "lib2" ⟨"lib2", "/lib2", []⟩ (by decide)
    (by
      intro p hp
      have hL : getJarFiles c2fs (Library.mk "lib2" "/lib2" []).path = ["/lib2/a.jar"] := by
        decide
      rw [hL] at hp
      have hpa : p = "/lib2/a.jar" := List.mem_singleton.mp hp
      subst hpa
      exact ⟨⟨[cxInfoFoo], cxJarFoo⟩, by decide, by decide⟩)

/-- C10: when a library's directory does not exist or cannot be read, the
scan error is swallowed into an empty candidate list, so the reindex
succeeds without surfacing an error and replaces the library's entry set
with the empty set. -/
theorem updateLibraryIndex_missing_directory_empties (fs : FS) (st : St) (id : String)
    (rebuild : Bool) (lib0 : Library)
    (hlib : getEntry st.libraries id = some lib0)
    (hdir : getEntry fs.dirs lib0.path = none ∨ getEntry fs.dirs lib0.path = some none) :
    ∃ lib1 st1, updateLibraryIndex fs st id rebuild = some (lib1, st1) ∧ lib1.plugins = [] := by
  have hscan : getJarFiles fs lib0.path = [] := by
    unfold getJarFiles
    rcases hdir with h | h <;> rw [h]
  cases rebuild
  · have h1 := updateLibraryIndex_eq_incremental fs st id lib0 hlib
    rw [hscan] at h1
    exact ⟨_, _, h1, rfl⟩
  · have h1 := updateLibraryIndex_eq_rebuild fs st id lib0 hlib
    rw [hscan] at h1
    exact ⟨_, _, h1, rfl⟩

/-- Witness for C10: a library whose directory is gone; the reindex succeeds
and empties its previously non-empty index. -/
theorem updateLibraryIndex_missing_directory_empties_witness :
    ∃ lib1 st1,
      updateLibraryIndex c10fs c10st "lib10" false = some (lib1, st1) ∧ lib1.plugins = [] :=
  updateLibraryIndex_missing_directory_empties c10fs c10st "lib10" false
    ⟨"lib10", "/gone", [⟨cxInfoFoo, cxJarFoo, "/gone/a.jar"⟩]⟩ (by decide) (Or.inl (by decide))

/-- C5: the content cache is a transparent optimization over direct
extraction: under a coherent cache (any slot whose stored hash matches its
path's current hash stores exactly the direct extraction result),
`getPluginInfoWithCache` returns exactly `getPluginInfo`'s result; and an
immediately repeated call on the same path returns identical records while
leaving the state — in particular the extraction-call counter — unchanged. -/
theorem getPluginInfoWithCache_transparent (fs : FS) (c : CacheSt) (p : String)
    (hcoh : ∀ q e, getEntry c.cache q = some e → e.hash = getFileHash fs q →
      e.info = getPluginInfo fs q) :
    (getPluginInfoWithCache fs c p).1 = getPluginInfo fs p ∧
    getPluginInfoWithCache fs (getPluginInfoWithCache fs c p).2 p
      = ((getPluginInfoWithCache fs c p).1, (getPluginInfoWithCache fs c p).2) ∧
    (getPluginInfoWithCache fs (getPluginInfoWithCache fs c p).2 p).2.extracts
      = (getPluginInfoWithCache fs c p).2.extracts := by
  refine ⟨?_, gwc_stable fs c p, by rw [gwc_stable fs c p]⟩
  cases hc : getEntry c.cache p with
  | none => simp [getPluginInfoWithCache, hc]
  | some e =>
    by_cases hh : e.hash = getFileHash fs p
    · rw [gwc_of_fresh fs c p e hc hh]
      exact hcoh p e hc hh
    · simp [getPluginInfoWithCache, hc, hh]

/-- Witness for C5: the transparency theorem applied at an empty (vacuously
coherent) cache and a concrete archive. -/
theorem getPluginInfoWithCache_transparent_witness :
    (getPluginInfoWithCache w5fs ⟨[], 0⟩ "/w5/a.jar").1 = getPluginInfo w5fs "/w5/a.jar" ∧
    getPluginInfoWithCache w5fs (getPluginInfoWithCache w5fs ⟨[], 0⟩ "/w5/a.jar").2 "/w5/a.jar"
      = ((getPluginInfoWithCache w5fs ⟨[], 0⟩ "/w5/a.jar").1,
         (getPluginInfoWithCache w5fs ⟨[], 0⟩ "/w5/a.jar").2) ∧
    (getPluginInfoWithCache w5fs
        (getPluginInfoWithCache w5fs ⟨[], 0⟩ "/w5/a.jar").2 "/w5/a.jar").2.extracts
      = (getPluginInfoWithCache w5fs ⟨[], 0⟩ "/w5/a.jar").2.extracts :=
  getPluginInfoWithCache_transparent w5fs ⟨[], 0⟩ "/w5/a.jar"
    (fun _ e h _ => Option.noConfusion h)

/-- A Velocity-probe record is always tagged exactly `{Velocity}`. -/
theorem getVelocityPluginInfo_platform (fs : FS) (p : String) (i : PluginInfo)
    (h : getVelocityPluginInfo fs p = some i) :
    i.platform = [SupportedPlatform.Velocity] := by
  cases hr : readFileFromJar fs p "velocity-plugin.json" with
  | none => simp [getVelocityPluginInfo, hr] at h
  | some e =>
    by_cases ht : isTruthy e = true
    · cases hp : parseJsonDoc e with
      | none => simp [getVelocityPluginInfo, hr, ht, hp] at h
      | some config =>
        simp [getVelocityPluginInfo, hr, ht, hp] at h
        subst h
        rfl
    · simp [getVelocityPluginInfo, hr, ht] at h

/-- A BungeeCord-probe record is always tagged exactly `{BungeeCord}`. -/
theorem getBungeePluginInfo_platform (fs : FS) (p : String) (i : PluginInfo)
    (h : getBungeePluginInfo fs p = some i) :
    i.platform = [SupportedPlatform.BungeeCord] := by
  cases hr : readFileFromJar fs p "bungee.yml" with
  | none => simp [getBungeePluginInfo, hr] at h
  | some e =>
    by_cases ht : isTruthy e = true
    · cases hp : parseYamlDoc e with
      | none => simp [getBungeePluginInfo, hr, ht, hp] at h
      | some config =>
        simp [getBungeePluginInfo, hr, ht, hp] at h
        subst h
        rfl
    · simp [getBungeePluginInfo, hr, ht] at h

/-- Unfolding equation of the Common probe once plugin.yml parses. -/
theorem getCommonPluginInfo_eq (fs : FS) (p : String) (config : Config)
    (h1 : readFileFromJar fs p "plugin.yml" = some (JarEntry.yamlDoc config)) :
    getCommonPluginInfo fs p
      = if 0 < (commonPlatforms fs p config).length
        then some { parseYamlConfig config with platform := commonPlatforms fs p config }
        else none := by
  simp [getCommonPluginInfo, h1, isTruthy, parseYamlDoc]

/-- A Common-probe record never carries an empty platform set. -/
theorem getCommonPluginInfo_platform_ne (fs : FS) (p : String) (i : PluginInfo)
    (h : getCommonPluginInfo fs p = some i) : i.platform ≠ [] := by
  cases hr : readFileFromJar fs p "plugin.yml" with
  | none => simp [getCommonPluginInfo, hr] at h
  | some e =>
    by_cases ht : isTruthy e = true
    · cases hp : parseYamlDoc e with
      | none => simp [getCommonPluginInfo, hr, ht, hp] at h
      | some config =>
        by_cases hl : 0 < (commonPlatforms fs p config).length
        · simp [getCommonPluginInfo, hr, ht, hp, hl] at h
          subst h
          intro hplat
          have hpl : commonPlatforms fs p config = [] := hplat
          rw [hpl] at hl
          simp at hl
        · simp [getCommonPluginInfo, hr, ht, hp, hl] at h
    · simp [getCommonPluginInfo, hr, ht] at h

/-- C6: an archive with none of the three descriptor entries yields zero
records, and — the probe-level invariant — no record produced by extraction
ever carries an empty platform set (the Common probe's record is discarded
when both platform signals leave the set empty). -/
theorem getPluginInfo_no_descriptor (fs : FS) (p : String) :
    (readFileFromJar fs p "velocity-plugin.json" = none →
     readFileFromJar fs p "bungee.yml" = none →
     readFileFromJar fs p "plugin.yml" = none →
     getPluginInfo fs p = []) ∧
    ∀ i ∈ getPluginInfo fs p, i.platform ≠ [] := by
  constructor
  · intro h1 h2 h3
    unfold getPluginInfo getVelocityPluginInfo getBungeePluginInfo getCommonPluginInfo
    rw [h1, h2, h3]
    rfl
  · intro i hi
    unfold getPluginInfo at hi
    rcases List.mem_append.mp hi with hi2 | hi3
    · rcases List.mem_append.mp hi2 with hv | hb
      · cases hvv : getVelocityPluginInfo fs p with
        | none => rw [hvv] at hv; exact absurd hv (List.not_mem_nil i)
        | some j =>
          rw [hvv] at hv
          have : i = j := List.mem_singleton.mp hv
          subst this
          rw [getVelocityPluginInfo_platform fs p i hvv]
          intro hc
          exact List.noConfusion hc
      · cases hbb : getBungeePluginInfo fs p with
        | none => rw [hbb] at hb; exact absurd hb (List.not_mem_nil i)
        | some j =>
          rw [hbb] at hb
          have : i = j := List.mem_singleton.mp hb
          subst this
          rw [getBungeePluginInfo_platform fs p i hbb]
          intro hc
          exact List.noConfusion hc
    · cases hcc : getCommonPluginInfo fs p with
      | none => rw [hcc] at hi3; exact absurd hi3 (List.not_mem_nil i)
      | some j =>
        rw [hcc] at hi3
        have : i = j := List.mem_singleton.mp hi3
        subst this
        exact getCommonPluginInfo_platform_ne fs p i hcc

/-- Witness for C6: a descriptorless archive at which both parts of the
theorem evaluate. -/
theorem getPluginInfo_no_descriptor_witness :
    getPluginInfo c6fs "/c6/a.jar" = [] ∧
    ∀ i ∈ getPluginInfo c6fs "/c6/a.jar", i.platform ≠ [] :=
  ⟨(getPluginInfo_no_descriptor c6fs "/c6/a.jar").1 (by decide) (by decide) (by decide),
   (getPluginInfo_no_descriptor c6fs "/c6/a.jar").2⟩

/-- C7: when plugin.yml parses and its `main` class entry is read but matches
neither the BungeeCord marker nor a Bukkit marker, the Common probe's record
is conservatively tagged with both Bukkit and BungeeCord; and whenever the
config carries a boolean `folia-supported` equal to true, Folia is in the
record's platform set regardless of the main-class outcome. -/
theorem getCommonPluginInfo_conservative_both (fs : FS) (p : String) (config : Config)
    (h1 : readFileFromJar fs p "plugin.yml" = some (JarEntry.yamlDoc config)) :
    (∀ m ce, getEntry config "main" = some (CVal.s m) →
      readFileFromJar fs p (classPathOf m) = some ce →
      checkClassInheritance (textOf ce) = none →
      ∃ i, getCommonPluginInfo fs p = some i ∧
        SupportedPlatform.Bukkit ∈ i.platform ∧ SupportedPlatform.BungeeCord ∈ i.platform) ∧
    (getEntry config "folia-supported" = some (CVal.b true) →
      ∃ i, getCommonPluginInfo fs p = some i ∧ SupportedPlatform.Folia ∈ i.platform) := by
  constructor
  · intro m ce hm hce hcc
    have hmain : mainClassPlatforms fs p config
        = [SupportedPlatform.Bukkit, SupportedPlatform.BungeeCord] := by
      simp [mainClassPlatforms, hm, hce, hcc]
    by_cases hf : getEntry config "folia-supported" = some (CVal.b true)
    · have hpl : commonPlatforms fs p config
          = [SupportedPlatform.Bukkit, SupportedPlatform.BungeeCord, SupportedPlatform.Folia] := by
        simp [commonPlatforms, hf, hmain]
      have hsome : getCommonPluginInfo fs p
          = some { parseYamlConfig config with platform := commonPlatforms fs p config } := by
        rw [getCommonPluginInfo_eq fs p config h1, if_pos (by simp [hpl])]
      exact ⟨_, hsome, by simp [hpl], by simp [hpl]⟩
    · have hpl : commonPlatforms fs p config
          = [SupportedPlatform.Bukkit, SupportedPlatform.BungeeCord] := by
        simp [commonPlatforms, hf, hmain]
      have hsome : getCommonPluginInfo fs p
          = some { parseYamlConfig config with platform := commonPlatforms fs p config } := by
        rw [getCommonPluginInfo_eq fs p config h1, if_pos (by simp [hpl])]
      exact ⟨_, hsome, by simp [hpl], by simp [hpl]⟩
  · intro hf
    have hpl : commonPlatforms fs p config
        = mainClassPlatforms fs p config ++ [SupportedPlatform.Folia] := by
      simp [commonPlatforms, hf]
    have hsome : getCommonPluginInfo fs p
        = some { parseYamlConfig config with platform := commonPlatforms fs p config } := by
      rw [getCommonPluginInfo_eq fs p config h1, if_pos (by simp [hpl])]
    exact ⟨_, hsome, by simp [hpl]⟩

/-- Witness for C7: a concrete archive whose main class resolves without a
marker and whose config declares folia support. -/
theorem getCommonPluginInfo_conservative_both_witness :
    (∃ i, getCommonPluginInfo c7fs "/c7/a.jar" = some i ∧
      SupportedPlatform.Bukkit ∈ i.platform ∧ SupportedPlatform.BungeeCord ∈ i.platform) ∧
    (∃ i, getCommonPluginInfo c7fs "/c7/a.jar" = some i ∧
      SupportedPlatform.Folia ∈ i.platform) :=
  ⟨(getCommonPluginInfo_conservative_both c7fs "/c7/a.jar" c7config (by decide)).1
      "com.x.Main" (JarEntry.raw "unrelated bytes") (by decide) (by decide) (by decide),
   (getCommonPluginInfo_conservative_both c7fs "/c7/a.jar" c7config (by decide)).2 (by decide)⟩

/-- C9: when plugin.yml names a main class whose compiled-class entry cannot
be read, the error is swallowed and neither Bukkit nor BungeeCord is added —
the conservative both-tags fallback needs the class content — so the Common
probe yields no record at all unless `folia-supported` is true. -/
theorem getCommonPluginInfo_unreadable_main (fs : FS) (p : String) (config : Config)
    (m : String)
    (h1 : readFileFromJar fs p "plugin.yml" = some (JarEntry.yamlDoc config))
    (hm : getEntry config "main" = some (CVal.s m))
    (hce : readFileFromJar fs p (classPathOf m) = none) :
    (∀ i, getCommonPluginInfo fs p = some i →
      SupportedPlatform.Bukkit ∉ i.platform ∧ SupportedPlatform.BungeeCord ∉ i.platform) ∧
    (getEntry config "folia-supported" ≠ some (CVal.b true) →
      getCommonPluginInfo fs p = none) := by
  have hmain : mainClassPlatforms fs p config = [] := by
    simp [mainClassPlatforms, hm, hce]
  by_cases hf : getEntry config "folia-supported" = some (CVal.b true)
  · have hpl : commonPlatforms fs p config = [SupportedPlatform.Folia] := by
      simp [commonPlatforms, hf, hmain]
    have hsome : getCommonPluginInfo fs p
        = some { parseYamlConfig config with platform := commonPlatforms fs p config } := by
      rw [getCommonPluginInfo_eq fs p config h1, if_pos (by simp [hpl])]
    constructor
    · intro i hi
      rw [hsome] at hi
      injection hi with hi2
      subst hi2
      constructor
      · simp [hpl]
      · simp [hpl]
    · intro hnf
      exact absurd hf hnf
  · have hpl : commonPlatforms fs p config = [] := by
      simp [commonPlatforms, hf, hmain]
    have hnone : getCommonPluginInfo fs p = none := by
      rw [getCommonPluginInfo_eq fs p config h1, if_neg (by simp [hpl])]
    constructor
    · intro i hi
      rw [hnone] at hi
      exact Option.noConfusion hi
    · intro _
      exact hnone

/-- Witness for C9: a concrete archive whose named main-class entry is
absent; its config does not declare folia support, so the probe yields
nothing. -/
theorem getCommonPluginInfo_unreadable_main_witness :
    ((∀ i, getCommonPluginInfo c9fs "/c9/a.jar" = some i →
      SupportedPlatform.Bukkit ∉ i.platform ∧ SupportedPlatform.BungeeCord ∉ i.platform) ∧
    (getEntry c9config "folia-supported" ≠ some (CVal.b true) →
      getCommonPluginInfo c9fs "/c9/a.jar" = none)) ∧
    getCommonPluginInfo c9fs "/c9/a.jar" = none := by
  have h := getCommonPluginInfo_unreadable_main c9fs "/c9/a.jar" c9config "com.x.Gone"
    (by decide) (by decide) (by decide)
  exact ⟨h, h.2 (by decide)⟩

/-- C1 (counterexample): a library holding a Bukkit "Foo" 1.0 entry and a
Velocity "Foo" 2.0 entry; `findPlugin` with name "Foo", latest=true and no
platform filter returns a single entry (the Velocity 2.0 one), not two
distinct-platform entries. -/
theorem findPlugin_latest_same_name_counterexample :
    (findPlugin c1st c1filters).map List.length = some 1 ∧
    (findPlugin c1st c1filters).map List.length ≠ some 2 ∧
    findPlugin c1st c1filters = some [c1entryB] :=
  ⟨by decide, by decide, by decide⟩

/-- C1 (amended): `findPlugin` with `latest` groups by plugin name only, so a
library holding a Bukkit "Foo" 1.0 entry and a Velocity "Foo" 2.0 entry
answers the query name "Foo", latest=true, no platform filter with exactly
one entry — the same-named distinct-platform records collapse, and the
higher-ranked version (the Velocity 2.0 entry) survives. -/
theorem findPlugin_latest_collapses_same_name (st : St) (lid : String) (lib : Library)
    (e1 e2 : PluginEntry)
    (hlibs : st.libraries = [(lid, lib)])
    (hplugins : lib.plugins = [e1, e2])
    (hn1 : e1.info.name = "Foo") (hv1 : e1.info.version = "1.0")
    (hp1 : e1.info.platform = [SupportedPlatform.Bukkit])
    (hn2 : e2.info.name = "Foo") (hv2 : e2.info.version = "2.0")
    (hp2 : e2.info.platform = [SupportedPlatform.Velocity]) :
    findPlugin st ⟨some "Foo", none, true, none, none⟩ = some [e2] := by
  have hfn : strTruthy (none : Option String) = none := rfl
  have hft : strTruthy (some "Foo") = some "Foo" := by decide
  have hstr : strIncludes (strToLower "Foo") (strToLower "Foo") = true := by decide
  have hsort : sortVersions ["2.0", "1.0"] = ["2.0", "1.0"] := by decide
  simp [findPlugin, pluginFilters, latestReduce, hlibs, hplugins, hfn, hft, hn1, hn2,
    hv1, hv2, hstr, hsort, getEntry, setEntry]

/-- Witness for C1 (amended): the collapse theorem applied at the concrete
two-entry library of the counterexample. -/
theorem findPlugin_latest_collapses_same_name_witness :
    findPlugin c1st ⟨some "Foo", none, true, none, none⟩ = some [c1entryB] :=
  findPlugin_latest_collapses_same_name c1st "L" ⟨"L", "/L", [c1entryA, c1entryB]⟩
    c1entryA c1entryB rfl rfl rfl rfl rfl rfl rfl rfl

/-- C8: the version ordering used by the latest reduction ranks "1.10.0"
above "1.2.0" and "1.2.0-SNAPSHOT" (numeric comparison of coerced
components), latest over those three versions of one name selects the
"1.10.0" entry; when both versions coerce to equal structures or either
fails to coerce, a SNAPSHOT-marked version sorts strictly below an unmarked
one; and latest over ["2.0-SNAPSHOT", "2.0"] selects the "2.0" entry. -/
theorem sortVersions_ordering_and_latest :
    (sortVersions ["1.2.0", "1.10.0"] = ["1.10.0", "1.2.0"] ∧
     sortVersions ["1.10.0", "1.2.0"] = ["1.10.0", "1.2.0"] ∧
     sortVersions ["1.2.0-SNAPSHOT", "1.10.0"] = ["1.10.0", "1.2.0-SNAPSHOT"] ∧
     sortVersions ["1.10.0", "1.2.0-SNAPSHOT"] = ["1.10.0", "1.2.0-SNAPSHOT"]) ∧
    findPlugin c8st ⟨none, none, true, none, none⟩ = some [c8e1100] ∧
    findPlugin c8st2 ⟨none, none, true, none, none⟩ = some [c8e20] ∧
    (∀ a b : String,
      ((semverCoerce a).isNone ∨ (semverCoerce b).isNone ∨ semverCoerce a = semverCoerce b) →
      strIncludes a "SNAPSHOT" = true →
      strIncludes b "SNAPSHOT" = false →
      sortVersions [a, b] = [b, a] ∧ sortVersions [b, a] = [b, a]) := by
  refine ⟨⟨by decide, by decide, by decide, by decide⟩, by decide, by decide, ?_⟩
  intro a b hco hsa hsb
  have hsvc : ∀ v : SemVer, semverCompare v v = 0 := by
    intro v
    simp [semverCompare]
  have hcmp1 : compareVersions a b = 1 := by
    unfold compareVersions
    cases hca : semverCoerce a with
    | none => simp [hsa, hsb]
    | some va =>
      cases hcb : semverCoerce b with
      | none => simp [hsa, hsb]
      | some vb =>
        have hvv : va = vb := by
          rcases hco with h | h | h
          · rw [hca] at h; simp at h
          · rw [hcb] at h; simp at h
          · rw [hca, hcb] at h; exact Option.some.inj h
        subst hvv
        simp [hsvc, hsa, hsb]
  have hcmp2 : compareVersions b a = -1 := by
    unfold compareVersions
    cases hca : semverCoerce a with
    | none => simp [hsa, hsb]
    | some va =>
      cases hcb : semverCoerce b with
      | none => simp [hsa, hsb]
      | some vb =>
        have hvv : va = vb := by
          rcases hco with h | h | h
          · rw [hca] at h; simp at h
          · rw [hcb] at h; simp at h
          · rw [hca, hcb] at h; exact Option.some.inj h
        subst hvv
        simp [hsvc, hsa, hsb]
  constructor
  · simp [sortVersions, insertVersion, hcmp2]
  · simp [sortVersions, insertVersion, hcmp1]

/-- Witness for C8's general tie-break clause: two non-coercible version
strings where only the first carries the SNAPSHOT marker. -/
theorem sortVersions_ordering_and_latest_witness :
    sortVersions ["abc-SNAPSHOT", "xyz"] = ["xyz", "abc-SNAPSHOT"] ∧
    sortVersions ["xyz", "abc-SNAPSHOT"] = ["xyz", "abc-SNAPSHOT"] :=
  sortVersions_ordering_and_latest.2.2.2 "abc-SNAPSHOT" "xyz"
    (Or.inl (by decide)) (by decide) (by decide)

end TMP
